import Mathlib

/-
Shallow embedding of the todo web application (src/homework1/todos/views.py)
and the parts of the repository it depends on.  The five request handlers
(todo_list, add_todo, toggle_todo, delete_todo, todo_detail) are translated
directly from views.py.  The Todo model (models.py) and the templates are not
under src/, so those parts are modelled from the spec, as marked below.
-/

namespace TodoApp

/-- HTTP method of an incoming request.  Only GET and POST occur in the
application; OTHER stands for any further verb. -/
inductive Method
  | GET
  | POST
  | OTHER
deriving DecidableEq, Repr

/-- Modelled from the spec: models.py is not under src/.  Per the spec, the
table has columns id (integer primary key, auto-increment), title (text),
completed (boolean, default false) and created_at (timestamp, auto-set at
creation).  Timestamps are modelled as natural numbers. -/
structure Todo where
  id : Nat
  title : String
  completed : Bool
  created_at : Nat
deriving DecidableEq, Repr

/-- The Todo table: rows kept in insertion order, together with the
auto-increment counter for the next primary key.  Modelled from the spec,
which describes the store as one flat table with an auto-increment id. -/
structure Store where
  todos : List Todo
  nextId : Nat
deriving DecidableEq, Repr

/-- The empty store; auto-increment ids start at 1. -/
def Store.empty : Store := ⟨[], 1⟩

/-- Response body: a rendered list page (carrying its template context), a
rendered detail page, the JSON bodies of add_todo, the framework 404 page, or
a redirect to a named view. -/
inductive Body
  | listPage (todos : List Todo)
  | detailPage (todo : Todo)
  | jsonTodo (id : Nat) (title : String) (completed : Bool)
  | jsonError (error : String)
  | notFoundPage
  | redirectTo (viewName : String)
deriving DecidableEq, Repr

/-- An HTTP response: status code plus body. -/
structure Response where
  status : Nat
  body : Body
deriving DecidableEq, Repr

/-- Embedding of Python str.strip on the character list: drop whitespace
characters from the front, then from the back. -/
def stripChars (cs : List Char) : List Char :=
  (((cs.dropWhile Char.isWhitespace).reverse).dropWhile Char.isWhitespace).reverse

/-- Embedding of the Python expression title.strip(): remove leading and
trailing whitespace. -/
def strip (x : String) : String := ⟨stripChars x.data⟩

/-- Django get_object_or_404(Todo, id=todo_id) performs the primary-key lookup;
on the list model this is the first row whose id matches. -/
def findTodo (s : Store) (todo_id : Nat) : Option Todo :=
  s.todos.find? (fun t => t.id == todo_id)

/-- Stable insertion into a list ordered by created_at descending: walk past
rows with strictly larger created_at and stop before the first row whose
created_at is smaller or equal, so rows with equal created_at keep their
original relative order. -/
def insertByCreatedAtDesc (t : Todo) : List Todo → List Todo
  | [] => [t]
  | u :: us =>
    if t.created_at < u.created_at then u :: insertByCreatedAtDesc t us
    else t :: u :: us

/-- Embedding of Todo.objects.all().order_by of -created_at: all rows sorted
by created_at descending; ties keep insertion order (stable order by
creation), as the spec describes for the backing store. -/
def orderByCreatedAtDesc : List Todo → List Todo
  | [] => []
  | t :: ts => insertByCreatedAtDesc t (orderByCreatedAtDesc ts)

/-- Modelled from the spec: the template todos/home.html is not under src/.
Per the spec the rendered list page contains each todo title, or an explicit
no-todos-yet message when the collection is empty (the test suite checks for
the text "No todos yet"). -/
def renderHome (todos : List Todo) : List String :=
  if todos.isEmpty then ["No todos yet"]
  else todos.map (fun t => t.title)

/-- views.py todo_list: read all rows ordered by created_at descending and
render the home page.  Always succeeds; render returns status 200. -/
def todo_list (s : Store) : Response × Store :=
  (⟨200, Body.listPage (orderByCreatedAtDesc s.todos)⟩, s)

/-- views.py add_todo: on POST, strip the submitted title (missing field reads
as the empty string); if non-empty, create the row (completed defaults to
false, created_at is set to the current time, id to the auto-increment
counter) and answer 201 with the JSON body of id, title and completed;
otherwise answer 400.  On any other method answer 405. -/
def add_todo (s : Store) (method : Method) (title_field : Option String)
    (now : Nat) : Response × Store :=
  if method = Method.POST then
    let title := strip (title_field.getD "")
    if title ≠ "" then
      let todo : Todo := ⟨s.nextId, title, false, now⟩
      (⟨201, Body.jsonTodo todo.id todo.title todo.completed⟩,
       ⟨s.todos ++ [todo], s.nextId + 1⟩)
    else
      (⟨400, Body.jsonError "Title is required"⟩, s)
  else
    (⟨405, Body.jsonError "Method not allowed"⟩, s)

/-- Effect of todo.completed = not todo.completed; todo.save() on one row of
the table: the row with the given primary key gets its completed flag
negated, every other row is untouched. -/
def toggleRow (todo_id : Nat) (u : Todo) : Todo :=
  if u.id = todo_id then { u with completed := !u.completed } else u

/-- views.py toggle_todo: look the row up by id (404 if absent), flip its
completed flag, save, and redirect to the list view.  The view never reads
the request method. -/
def toggle_todo (s : Store) (method : Method) (todo_id : Nat) :
    Response × Store :=
  match findTodo s todo_id with
  | none => (⟨404, Body.notFoundPage⟩, s)
  | some _ =>
    (⟨302, Body.redirectTo "todo_list"⟩,
     ⟨s.todos.map (toggleRow todo_id), s.nextId⟩)

/-- views.py delete_todo: look the row up by id (404 if absent), delete it,
and redirect to the list view.  The view never reads the request method. -/
def delete_todo (s : Store) (method : Method) (todo_id : Nat) :
    Response × Store :=
  match findTodo s todo_id with
  | none => (⟨404, Body.notFoundPage⟩, s)
  | some _ =>
    (⟨302, Body.redirectTo "todo_list"⟩,
     ⟨s.todos.filter (fun u => !(u.id == todo_id)), s.nextId⟩)

/-- views.py todo_detail: look the row up by id (404 if absent) and render the
detail page with status 200. -/
def todo_detail (s : Store) (todo_id : Nat) : Response × Store :=
  match findTodo s todo_id with
  | none => (⟨404, Body.notFoundPage⟩, s)
  | some t => (⟨200, Body.detailPage t⟩, s)

/-- One request of the HTTP interface, routed to one of the five handlers. -/
inductive Request
  | list
  | detail (todo_id : Nat)
  | add (method : Method) (title_field : Option String)
  | toggle (method : Method) (todo_id : Nat)
  | delete (method : Method) (todo_id : Nat)
deriving DecidableEq, Repr

/-- Dispatch one request (at server time now) to its handler. -/
def handle (s : Store) (now : Nat) : Request → Response × Store
  | Request.list => todo_list s
  | Request.detail i => todo_detail s i
  | Request.add m tf => add_todo s m tf now
  | Request.toggle m i => toggle_todo s m i
  | Request.delete m i => delete_todo s m i

/-- Run a sequence of requests, each tagged with its server time, threading
the store through. -/
def execAll (s : Store) : List (Nat × Request) → Store
  | [] => s
  | (now, r) :: rest => execAll (handle s now r).2 rest

/-- A stored title is valid when it is non-empty and not whitespace-only. -/
def ValidTitle (x : String) : Prop :=
  x ≠ "" ∧ ∃ c ∈ x.data, ¬c.isWhitespace

/-- Invariant of the store: every row has a valid title. -/
def TitlesOK (s : Store) : Prop := ∀ t ∈ s.todos, ValidTitle t.title

/-- Well-formedness of the store: primary keys are pairwise distinct. -/
def Store.WF (s : Store) : Prop := (s.todos.map Todo.id).Nodup

/-- Rows sorted by created_at descending. -/
def SortedByCreatedAtDesc (l : List Todo) : Prop :=
  l.Pairwise (fun a b => b.created_at ≤ a.created_at)

/-! ## Helper lemmas -/

/-- The head of dropWhile p fails p. -/
theorem head?_dropWhile_false (p : α → Bool) :
    ∀ (l : List α) (x : α), (l.dropWhile p).head? = some x → p x = false := by
  intro l
  induction l with
  | nil => intro x h; simp [List.dropWhile] at h
  | cons a as ih =>
    intro x h
    rw [List.dropWhile_cons] at h
    by_cases ha : p a
    · rw [if_pos ha] at h; exact ih x h
    · rw [if_neg ha] at h
      simp only [List.head?_cons, Option.some.injEq] at h
      subst h
      simpa using ha

/-- A string that remains non-empty after stripping contains a
non-whitespace character, so the stripped value is a valid title. -/
theorem strip_valid (x : String) (h : strip x ≠ "") : ValidTitle (strip x) := by
  refine ⟨h, ?_⟩
  have hne : stripChars x.data ≠ [] := by
    intro he
    exact h (show strip x = "" by rw [strip, he])
  show ∃ c ∈ stripChars x.data, ¬c.isWhitespace
  rw [stripChars] at hne ⊢
  have hLne : ((x.data.dropWhile Char.isWhitespace).reverse).dropWhile
      Char.isWhitespace ≠ [] := by
    intro he; rw [he] at hne; exact hne rfl
  refine ⟨_, List.mem_reverse.mpr (List.head_mem hLne), ?_⟩
  have hf := head?_dropWhile_false Char.isWhitespace
      (x.data.dropWhile Char.isWhitespace).reverse _ (List.head?_eq_head hLne)
  simp [hf]

/-- Decomposition of a successful linear search: the list splits into a
prefix of elements failing the predicate, the found element, and a tail. -/
theorem find?_eq_some_decomp {α : Type} {p : α → Bool} :
    ∀ {l : List α} {a : α}, l.find? p = some a →
      ∃ pre post, l = pre ++ a :: post ∧
        (∀ u ∈ pre, p u = false) ∧ p a = true := by
  intro l
  induction l with
  | nil => intro a h; simp at h
  | cons x xs ih =>
    intro a h
    by_cases hx : p x
    · rw [List.find?_cons_of_pos _ hx] at h
      cases h
      exact ⟨[], xs, rfl, by simp, hx⟩
    · rw [List.find?_cons_of_neg _ hx] at h
      obtain ⟨pre, post, rfl, hpre, hpa⟩ := ih h
      refine ⟨x :: pre, post, rfl, ?_, hpa⟩
      intro u hu
      rcases List.mem_cons.mp hu with rfl | hu
      · simpa using hx
      · exact hpre u hu

/-- toggleRow never changes the primary key. -/
theorem toggleRow_id (i : Nat) (u : Todo) : (toggleRow i u).id = u.id := by
  rw [toggleRow]; split <;> rfl

/-- toggleRow never changes the title. -/
theorem toggleRow_title (i : Nat) (u : Todo) :
    (toggleRow i u).title = u.title := by
  rw [toggleRow]; split <;> rfl

/-- toggleRow on a row with a different primary key is the identity. -/
theorem toggleRow_ne (i : Nat) (u : Todo) (h : u.id ≠ i) :
    toggleRow i u = u := by
  rw [toggleRow, if_neg h]

/-- toggleRow twice is the identity on every row. -/
theorem toggleRow_toggleRow (i : Nat) (u : Todo) :
    toggleRow i (toggleRow i u) = u := by
  cases u with
  | mk uid title completed created =>
    by_cases h : uid = i <;> simp [toggleRow, h]

/-- Primary-key lookup after a toggle finds the toggled row. -/
theorem findTodo_toggle (s : Store) (m : Method) (i : Nat) (t : Todo)
    (h : findTodo s i = some t) :
    findTodo (toggle_todo s m i).2 i = some (toggleRow i t) := by
  have hcomp : ((fun u : Todo => u.id == i) ∘ toggleRow i)
      = fun u : Todo => u.id == i := by
    funext u
    simp [Function.comp, toggleRow_id]
  have h' : s.todos.find? (fun u : Todo => u.id == i) = some t := h
  simp only [toggle_todo, findTodo, h']
  rw [List.find?_map, hcomp, h']
  rfl


/-- Stable insertion produces a permutation of consing the element. -/
theorem insertByCreatedAtDesc_perm (t : Todo) :
    ∀ l : List Todo, List.Perm (insertByCreatedAtDesc t l) (t :: l)
  | [] => List.Perm.refl _
  | u :: us => by
    rw [insertByCreatedAtDesc]
    by_cases hc : t.created_at < u.created_at
    · rw [if_pos hc]
      exact ((insertByCreatedAtDesc_perm t us).cons u).trans
        (List.Perm.swap t u us)
    · rw [if_neg hc]

/-- The ordering used by the list view is a permutation of the table. -/
theorem orderByCreatedAtDesc_perm :
    ∀ l : List Todo, List.Perm (orderByCreatedAtDesc l) l
  | [] => List.Perm.refl _
  | t :: ts =>
    (insertByCreatedAtDesc_perm t (orderByCreatedAtDesc ts)).trans
      ((orderByCreatedAtDesc_perm ts).cons t)

/-- Stable insertion preserves descending sortedness. -/
theorem insertByCreatedAtDesc_sorted (t : Todo) {l : List Todo}
    (h : SortedByCreatedAtDesc l) :
    SortedByCreatedAtDesc (insertByCreatedAtDesc t l) := by
  induction l with
  | nil =>
    rw [insertByCreatedAtDesc]
    exact List.pairwise_cons.mpr ⟨by simp, List.Pairwise.nil⟩
  | cons u us ih =>
    obtain ⟨hu, hus⟩ := List.pairwise_cons.mp h
    rw [insertByCreatedAtDesc]
    by_cases hc : t.created_at < u.created_at
    · rw [if_pos hc]
      refine List.pairwise_cons.mpr ⟨?_, ih hus⟩
      intro b hb
      rcases List.mem_cons.mp
          ((insertByCreatedAtDesc_perm t us).mem_iff.mp hb) with rfl | hb
      · omega
      · exact hu b hb
    · rw [if_neg hc]
      refine List.pairwise_cons.mpr ⟨?_, h⟩
      intro b hb
      rcases List.mem_cons.mp hb with rfl | hb
      · omega
      · exact le_trans (hu b hb) (by omega)

/-- Stable insertion does not change the subsequence of rows carrying any
fixed created_at value: the inserted row lands in front of all rows with the
same timestamp, which therefore keep their relative order. -/
theorem insertByCreatedAtDesc_filter (c : Nat) (t : Todo) :
    ∀ l : List Todo,
      (insertByCreatedAtDesc t l).filter (fun u => u.created_at == c)
        = (t :: l).filter (fun u => u.created_at == c)
  | [] => rfl
  | u :: us => by
    rw [insertByCreatedAtDesc]
    by_cases hc : t.created_at < u.created_at
    · rw [if_pos hc]
      by_cases hu : u.created_at = c
      · have ht : ¬t.created_at = c := by omega
        simp [List.filter_cons, hu, ht, insertByCreatedAtDesc_filter c t us]
      · by_cases ht : t.created_at = c <;>
          simp [List.filter_cons, hu, ht,
            insertByCreatedAtDesc_filter c t us]
    · rw [if_neg hc]

/-- The list view ordering keeps rows with equal created_at in insertion
order: filtering by any fixed created_at value gives back the original
subsequence of the table. -/
theorem orderByCreatedAtDesc_filter (c : Nat) :
    ∀ l : List Todo,
      (orderByCreatedAtDesc l).filter (fun u => u.created_at == c)
        = l.filter (fun u => u.created_at == c)
  | [] => rfl
  | t :: ts => by
    rw [orderByCreatedAtDesc, insertByCreatedAtDesc_filter]
    by_cases ht : t.created_at = c <;>
      simp [List.filter_cons, ht, orderByCreatedAtDesc_filter c ts]

/-- C1: a POST to the create operation whose title is non-empty after
stripping inserts exactly one new row, stored with the stripped title,
completed false and created_at set to the server time; the response is 201
with the JSON body of that row's id, title and completed, and the count grows
by one. -/
theorem add_todo_creates (s : Store) (v : String) (now : Nat)
    (h : strip v ≠ "") :
    (add_todo s Method.POST (some v) now).1.status = 201 ∧
    (add_todo s Method.POST (some v) now).1.body
      = Body.jsonTodo s.nextId (strip v) false ∧
    (add_todo s Method.POST (some v) now).2.todos
      = s.todos ++ [⟨s.nextId, strip v, false, now⟩] ∧
    (add_todo s Method.POST (some v) now).2.todos.length
      = s.todos.length + 1 ∧
    (add_todo s Method.POST (some v) now).2.nextId = s.nextId + 1 := by
  simp [add_todo, h]

/-- Witness for C1 at the concrete title " buy milk ". -/
theorem add_todo_creates_witness :
    strip " buy milk " ≠ "" ∧
    (add_todo Store.empty Method.POST (some " buy milk ") 7).1.status = 201 ∧
    (add_todo Store.empty Method.POST (some " buy milk ") 7).2.todos
      = [⟨1, "buy milk", false, 7⟩] :=
  ⟨by decide,
   (add_todo_creates Store.empty " buy milk " 7 (by decide)).1,
   by have h := (add_todo_creates Store.empty " buy milk " 7 (by decide)).2.2.1
      simpa [Store.empty] using h⟩

/-- C3: a POST to the create operation whose title is empty or
whitespace-only after stripping yields status 400 and leaves the store
exactly as it was. -/
theorem add_todo_rejects_blank (s : Store) (v : String) (now : Nat)
    (h : strip v = "") :
    (add_todo s Method.POST (some v) now).1.status = 400 ∧
    (add_todo s Method.POST (some v) now).2 = s := by
  simp [add_todo, h]

/-- Witness for C3 at the concrete whitespace-only title. -/
theorem add_todo_rejects_blank_witness :
    strip "   " = "" ∧
    (add_todo Store.empty Method.POST (some "   ") 0).1.status = 400 ∧
    (add_todo Store.empty Method.POST (some "   ") 0).2 = Store.empty :=
  ⟨by decide,
   (add_todo_rejects_blank Store.empty "   " 0 (by decide)).1,
   (add_todo_rejects_blank Store.empty "   " 0 (by decide)).2⟩

/-- C10: a POST to the create operation with no title field at all behaves
exactly like an empty title: the field reads as the empty string, the
response is 400 and no row is inserted. -/
theorem add_todo_missing_title (s : Store) (now : Nat) :
    add_todo s Method.POST none now = add_todo s Method.POST (some "") now ∧
    (add_todo s Method.POST none now).1.status = 400 ∧
    (add_todo s Method.POST none now).2 = s := by
  refine ⟨rfl, ?_, ?_⟩ <;> simp [add_todo, strip, stripChars]

/-- C4: for an id not present in the store, detail, toggle and delete each
answer 404 and leave the store entirely unchanged. -/
theorem missing_id_404 (s : Store) (m : Method) (i : Nat)
    (h : findTodo s i = none) :
    (todo_detail s i).1.status = 404 ∧ (todo_detail s i).2 = s ∧
    (toggle_todo s m i).1.status = 404 ∧ (toggle_todo s m i).2 = s ∧
    (delete_todo s m i).1.status = 404 ∧ (delete_todo s m i).2 = s := by
  simp [todo_detail, toggle_todo, delete_todo, h]

/-- Witness for C4: id 999 on the empty store. -/
theorem missing_id_404_witness :
    findTodo Store.empty 999 = none ∧
    (todo_detail Store.empty 999).1.status = 404 ∧
    (toggle_todo Store.empty Method.POST 999).2 = Store.empty :=
  ⟨by decide,
   (missing_id_404 Store.empty Method.POST 999 (by decide)).1,
   (missing_id_404 Store.empty Method.POST 999 (by decide)).2.2.2.1⟩

/-- C2 counterexample: the toggle and delete views do not reject non-POST
methods.  On a store holding one row, a GET request to toggle answers 302 and
flips the row, and a GET request to delete answers 302 and removes the row. -/
theorem toggle_delete_get_not_rejected :
    (toggle_todo ⟨[⟨1, "a", false, 0⟩], 2⟩ Method.GET 1).1.status = 302 ∧
    (toggle_todo ⟨[⟨1, "a", false, 0⟩], 2⟩ Method.GET 1).2
      ≠ (⟨[⟨1, "a", false, 0⟩], 2⟩ : Store) ∧
    (delete_todo ⟨[⟨1, "a", false, 0⟩], 2⟩ Method.GET 1).1.status = 302 ∧
    (delete_todo ⟨[⟨1, "a", false, 0⟩], 2⟩ Method.GET 1).2
      ≠ (⟨[⟨1, "a", false, 0⟩], 2⟩ : Store) := by
  decide

/-- C2 amended: the toggle and delete views never read the request method, so
a request with any method behaves exactly like a POST: same response and same
store effect. -/
theorem toggle_delete_ignore_method (s : Store) (m : Method) (i : Nat) :
    toggle_todo s m i = toggle_todo s Method.POST i ∧
    delete_todo s m i = delete_todo s Method.POST i :=
  ⟨rfl, rfl⟩

/-- Mapping a function that fixes every member of a list is the identity. -/
theorem map_id_of_mem {α : Type} (f : α → α) :
    ∀ l : List α, (∀ u ∈ l, f u = u) → l.map f = l
  | [], _ => rfl
  | x :: xs, h => by
    rw [List.map_cons, h x (List.mem_cons_self x xs),
      map_id_of_mem f xs (fun u hu => h u (List.mem_cons_of_mem x hu))]

/-- The list view ordering of the whole table is sorted by created_at
descending. -/
theorem orderByCreatedAtDesc_sorted :
    ∀ l : List Todo, SortedByCreatedAtDesc (orderByCreatedAtDesc l)
  | [] => List.Pairwise.nil
  | t :: ts =>
    insertByCreatedAtDesc_sorted t (orderByCreatedAtDesc_sorted ts)

/-- C5: the list operation always answers 200 and leaves the store
unchanged; the page presents all rows (a permutation of the table), ordered
by created_at descending with rows of equal created_at in insertion order,
and renders the explicit no-todos-yet message exactly when the table is
empty, otherwise the titles in that order. -/
theorem todo_list_ok (s : Store) :
    (todo_list s).1.status = 200 ∧
    (todo_list s).2 = s ∧
    (todo_list s).1.body = Body.listPage (orderByCreatedAtDesc s.todos) ∧
    List.Perm (orderByCreatedAtDesc s.todos) s.todos ∧
    SortedByCreatedAtDesc (orderByCreatedAtDesc s.todos) ∧
    (∀ c, (orderByCreatedAtDesc s.todos).filter (fun u => u.created_at == c)
        = s.todos.filter (fun u => u.created_at == c)) ∧
    (s.todos = [] →
      renderHome (orderByCreatedAtDesc s.todos) = ["No todos yet"]) ∧
    (s.todos ≠ [] →
      renderHome (orderByCreatedAtDesc s.todos)
        = (orderByCreatedAtDesc s.todos).map (fun t => t.title)) := by
  refine ⟨rfl, rfl, rfl, orderByCreatedAtDesc_perm s.todos,
    orderByCreatedAtDesc_sorted s.todos,
    fun c => orderByCreatedAtDesc_filter c s.todos, ?_, ?_⟩
  · intro h
    rw [h]
    rfl
  · intro h
    have hne : orderByCreatedAtDesc s.todos ≠ [] := by
      intro he
      have hlen := (orderByCreatedAtDesc_perm s.todos).length_eq
      rw [he] at hlen
      exact h (List.length_eq_zero.mp hlen.symm)
    rw [renderHome, if_neg]
    simpa using hne

/-- Witness for C5: the empty store renders the empty-state message, and a
two-row store (created First then Second) lists the later row first. -/
theorem todo_list_ok_witness :
    (todo_list Store.empty).1.status = 200 ∧
    renderHome (orderByCreatedAtDesc (Store.empty).todos) = ["No todos yet"] ∧
    orderByCreatedAtDesc
        [⟨1, "First", false, 1⟩, ⟨2, "Second", false, 2⟩]
      = [⟨2, "Second", false, 2⟩, ⟨1, "First", false, 1⟩] :=
  ⟨(todo_list_ok Store.empty).1,
   (todo_list_ok Store.empty).2.2.2.2.2.2.1 rfl,
   by decide⟩

/-- C6: toggling an id present in a well-formed store answers a 302 redirect
to the list view and updates exactly one row: the found row has its
completed flag flipped, every other row and the id counter are unchanged. -/
theorem toggle_todo_found (s : Store) (m : Method) (i : Nat) (t : Todo)
    (hwf : s.WF) (h : findTodo s i = some t) :
    (toggle_todo s m i).1.status = 302 ∧
    (toggle_todo s m i).1.body = Body.redirectTo "todo_list" ∧
    (toggle_todo s m i).2.nextId = s.nextId ∧
    ∃ pre post,
      s.todos = pre ++ t :: post ∧
      (toggle_todo s m i).2.todos
        = pre ++ { t with completed := !t.completed } :: post := by
  obtain ⟨pre, post, hs, hpre, hpt⟩ := find?_eq_some_decomp
    (show s.todos.find? (fun u => u.id == i) = some t from h)
  have hti : t.id = i := by simpa using hpt
  have hpre' : ∀ u ∈ pre, u.id ≠ i := by
    intro u hu
    simpa using hpre u hu
  have hnd : ((pre ++ t :: post).map Todo.id).Nodup := by
    rw [← hs]; exact hwf
  have hpost : ∀ u ∈ post, u.id ≠ i := by
    intro u hu hui
    rw [List.map_append, List.map_cons] at hnd
    have h2 := hnd.of_append_right
    exact (List.nodup_cons.mp h2).1
      (List.mem_map.mpr ⟨u, hu, by rw [hui, hti]⟩)
  have htodos : (toggle_todo s m i).2.todos = s.todos.map (toggleRow i) := by
    simp [toggle_todo, h]
  refine ⟨by simp [toggle_todo, h], by simp [toggle_todo, h],
    by simp [toggle_todo, h], pre, post, hs, ?_⟩
  rw [htodos, hs, List.map_append, List.map_cons,
    map_id_of_mem _ pre (fun u hu => toggleRow_ne i u (hpre' u hu)),
    map_id_of_mem _ post (fun u hu => toggleRow_ne i u (hpost u hu)),
    toggleRow, if_pos hti]

/-- Witness for C6: toggling id 1 in a one-row store answers 302. -/
theorem toggle_todo_found_witness :
    Store.WF ⟨[⟨1, "a", false, 0⟩], 2⟩ ∧
    findTodo ⟨[⟨1, "a", false, 0⟩], 2⟩ 1 = some ⟨1, "a", false, 0⟩ ∧
    (toggle_todo ⟨[⟨1, "a", false, 0⟩], 2⟩ Method.POST 1).1.status = 302 :=
  ⟨by unfold Store.WF; decide, by decide,
   (toggle_todo_found ⟨[⟨1, "a", false, 0⟩], 2⟩ Method.POST 1
      ⟨1, "a", false, 0⟩ (by unfold Store.WF; decide) (by decide)).1⟩

/-- C7: deleting an id present in a well-formed store answers a 302 redirect
to the list view and removes exactly that one row; a subsequent detail
lookup for the id answers 404. -/
theorem delete_todo_found (s : Store) (m : Method) (i : Nat) (t : Todo)
    (hwf : s.WF) (h : findTodo s i = some t) :
    (delete_todo s m i).1.status = 302 ∧
    (delete_todo s m i).1.body = Body.redirectTo "todo_list" ∧
    (delete_todo s m i).2.nextId = s.nextId ∧
    (∃ pre post, s.todos = pre ++ t :: post ∧
      (delete_todo s m i).2.todos = pre ++ post) ∧
    (todo_detail (delete_todo s m i).2 i).1.status = 404 := by
  obtain ⟨pre, post, hs, hpre, hpt⟩ := find?_eq_some_decomp
    (show s.todos.find? (fun u => u.id == i) = some t from h)
  have hti : t.id = i := by simpa using hpt
  have hpre' : ∀ u ∈ pre, u.id ≠ i := by
    intro u hu
    simpa using hpre u hu
  have hnd : ((pre ++ t :: post).map Todo.id).Nodup := by
    rw [← hs]; exact hwf
  have hpost : ∀ u ∈ post, u.id ≠ i := by
    intro u hu hui
    rw [List.map_append, List.map_cons] at hnd
    have h2 := hnd.of_append_right
    exact (List.nodup_cons.mp h2).1
      (List.mem_map.mpr ⟨u, hu, by rw [hui, hti]⟩)
  have htodos : (delete_todo s m i).2.todos
      = s.todos.filter (fun u => !(u.id == i)) := by
    simp [delete_todo, h]
  have hfil : s.todos.filter (fun u => !(u.id == i)) = pre ++ post := by
    rw [hs, List.filter_append, List.filter_cons]
    have hc : (!(t.id == i)) = false := by simp [hti]
    rw [hc]
    simp only [Bool.false_eq_true, if_false]
    rw [List.filter_eq_self.mpr (fun u hu => by simp [hpre' u hu]),
      List.filter_eq_self.mpr (fun u hu => by simp [hpost u hu])]
  have hnone : findTodo (delete_todo s m i).2 i = none := by
    rw [findTodo, htodos, hfil]
    exact List.find?_eq_none.mpr (fun x hx => by
      rcases List.mem_append.mp hx with hx | hx
      · simp [hpre' x hx]
      · simp [hpost x hx])
  refine ⟨by simp [delete_todo, h], by simp [delete_todo, h],
    by simp [delete_todo, h], ⟨pre, post, hs, by rw [htodos, hfil]⟩, ?_⟩
  simp [todo_detail, hnone]

/-- Witness for C7: deleting id 1 in a one-row store answers 302 and the
following detail lookup answers 404. -/
theorem delete_todo_found_witness :
    Store.WF ⟨[⟨1, "a", false, 0⟩], 2⟩ ∧
    (delete_todo ⟨[⟨1, "a", false, 0⟩], 2⟩ Method.POST 1).1.status = 302 ∧
    (todo_detail (delete_todo ⟨[⟨1, "a", false, 0⟩], 2⟩
        Method.POST 1).2 1).1.status = 404 :=
  ⟨by unfold Store.WF; decide,
   (delete_todo_found ⟨[⟨1, "a", false, 0⟩], 2⟩ Method.POST 1
      ⟨1, "a", false, 0⟩ (by unfold Store.WF; decide) (by decide)).1,
   (delete_todo_found ⟨[⟨1, "a", false, 0⟩], 2⟩ Method.POST 1
      ⟨1, "a", false, 0⟩ (by unfold Store.WF; decide) (by decide)).2.2.2.2⟩

/-- The store effect of a successful toggle: every row passes through
toggleRow, the id counter is unchanged. -/
theorem toggle_todo_store (s : Store) (m : Method) (i : Nat) (t : Todo)
    (h : findTodo s i = some t) :
    (toggle_todo s m i).2 = ⟨s.todos.map (toggleRow i), s.nextId⟩ := by
  simp [toggle_todo, h]

/-- C9: toggling the same present id twice restores the store exactly; in
particular the completed flag of that todo returns to its original value. -/
theorem toggle_twice_involutive (s : Store) (m : Method) (i : Nat) (t : Todo)
    (h : findTodo s i = some t) :
    (toggle_todo (toggle_todo s m i).2 m i).2 = s ∧
    findTodo (toggle_todo (toggle_todo s m i).2 m i).2 i = some t := by
  have h1 := findTodo_toggle s m i t h
  have hs1 := toggle_todo_store s m i t h
  have hs2 := toggle_todo_store (toggle_todo s m i).2 m i (toggleRow i t) h1
  have heq : (toggle_todo (toggle_todo s m i).2 m i).2 = s := by
    rw [hs2, hs1]
    simp only [List.map_map]
    rw [map_id_of_mem (toggleRow i ∘ toggleRow i) s.todos
      (fun u _ => toggleRow_toggleRow i u)]
  exact ⟨heq, by rw [heq]; exact h⟩

/-- Witness for C9: toggling id 1 twice in a one-row store restores it. -/
theorem toggle_twice_involutive_witness :
    findTodo ⟨[⟨1, "a", false, 0⟩], 2⟩ 1 = some ⟨1, "a", false, 0⟩ ∧
    (toggle_todo (toggle_todo ⟨[⟨1, "a", false, 0⟩], 2⟩ Method.POST 1).2
        Method.POST 1).2 = ⟨[⟨1, "a", false, 0⟩], 2⟩ :=
  ⟨by decide,
   (toggle_twice_involutive ⟨[⟨1, "a", false, 0⟩], 2⟩ Method.POST 1
      ⟨1, "a", false, 0⟩ (by decide)).1⟩

/-- add_todo keeps every stored title valid. -/
theorem add_todo_titlesOK (s : Store) (m : Method) (tf : Option String)
    (now : Nat) (h : TitlesOK s) : TitlesOK (add_todo s m tf now).2 := by
  by_cases hm : m = Method.POST
  · by_cases ht : strip (tf.getD "") = ""
    · have hsame : (add_todo s m tf now).2 = s := by simp [add_todo, hm, ht]
      rw [hsame]; exact h
    · have htodos : (add_todo s m tf now).2.todos
          = s.todos ++ [⟨s.nextId, strip (tf.getD ""), false, now⟩] := by
        simp [add_todo, hm, ht]
      intro u hu
      rw [htodos] at hu
      rcases List.mem_append.mp hu with hu | hu
      · exact h u hu
      · rw [List.mem_singleton.mp hu]
        exact strip_valid _ ht
  · have hsame : (add_todo s m tf now).2 = s := by simp [add_todo, hm]
    rw [hsame]; exact h

/-- toggle_todo keeps every stored title valid. -/
theorem toggle_todo_titlesOK (s : Store) (m : Method) (i : Nat)
    (h : TitlesOK s) : TitlesOK (toggle_todo s m i).2 := by
  cases hf : findTodo s i with
  | none =>
    have hsame : (toggle_todo s m i).2 = s := by simp [toggle_todo, hf]
    rw [hsame]; exact h
  | some t =>
    have htodos : (toggle_todo s m i).2.todos
        = s.todos.map (toggleRow i) := by
      simp [toggle_todo, hf]
    intro u hu
    rw [htodos] at hu
    obtain ⟨w, hw, rfl⟩ := List.mem_map.mp hu
    rw [toggleRow_title]
    exact h w hw

/-- delete_todo keeps every stored title valid. -/
theorem delete_todo_titlesOK (s : Store) (m : Method) (i : Nat)
    (h : TitlesOK s) : TitlesOK (delete_todo s m i).2 := by
  cases hf : findTodo s i with
  | none =>
    have hsame : (delete_todo s m i).2 = s := by simp [delete_todo, hf]
    rw [hsame]; exact h
  | some t =>
    have htodos : (delete_todo s m i).2.todos
        = s.todos.filter (fun u => !(u.id == i)) := by
      simp [delete_todo, hf]
    intro u hu
    rw [htodos] at hu
    exact h u (List.mem_of_mem_filter hu)

/-- todo_detail keeps every stored title valid (it never writes). -/
theorem todo_detail_titlesOK (s : Store) (i : Nat)
    (h : TitlesOK s) : TitlesOK (todo_detail s i).2 := by
  cases hf : findTodo s i with
  | none =>
    have hsame : (todo_detail s i).2 = s := by simp [todo_detail, hf]
    rw [hsame]; exact h
  | some t =>
    have hsame : (todo_detail s i).2 = s := by simp [todo_detail, hf]
    rw [hsame]; exact h

/-- Every handler preserves validity of all stored titles. -/
theorem handle_titlesOK (s : Store) (now : Nat) (r : Request)
    (h : TitlesOK s) : TitlesOK (handle s now r).2 := by
  cases r with
  | list => exact h
  | detail i => exact todo_detail_titlesOK s i h
  | add m tf => exact add_todo_titlesOK s m tf now h
  | toggle m i => exact toggle_todo_titlesOK s m i h
  | delete m i => exact delete_todo_titlesOK s m i h

/-- Running any request sequence preserves validity of all stored titles. -/
theorem execAll_titlesOK :
    ∀ (reqs : List (Nat × Request)) (s : Store),
      TitlesOK s → TitlesOK (execAll s reqs)
  | [], _, h => h
  | (now, r) :: rest, s, h =>
    execAll_titlesOK rest _ (handle_titlesOK s now r h)

/-- C8: every row in the store has a non-empty, non-whitespace-only title:
each of the five operations preserves the property, and it holds after every
request sequence run against the initially empty store. -/
theorem titles_invariant :
    (∀ (s : Store) (now : Nat) (r : Request),
        TitlesOK s → TitlesOK (handle s now r).2) ∧
    (∀ reqs : List (Nat × Request), TitlesOK (execAll Store.empty reqs)) :=
  ⟨handle_titlesOK,
   fun reqs => execAll_titlesOK reqs Store.empty
     (by intro t ht; simp [Store.empty] at ht)⟩

/-- Witness for C8 at a concrete request and a concrete request sequence. -/
theorem titles_invariant_witness :
    TitlesOK (handle Store.empty 0
      (Request.add Method.POST (some " hi "))).2 ∧
    TitlesOK (execAll Store.empty
      [(0, Request.add Method.POST (some " hi ")),
       (1, Request.toggle Method.POST 1)]) :=
  ⟨titles_invariant.1 Store.empty 0 (Request.add Method.POST (some " hi "))
     (by intro t ht; simp [Store.empty] at ht),
   titles_invariant.2
     [(0, Request.add Method.POST (some " hi ")),
      (1, Request.toggle Method.POST 1)]⟩

end TodoApp
